import Mathlib

/-!
Verification development for the rtsf test-case loading core
(`rtsf/p_testcase.py`): the token scanners, the call parser, the
evaluation engine, the definition store and the case assembler.

Python values reachable by this code are modelled by the inductive
`Content`.  Strings are lists of characters; Python dicts are
insertion-ordered association lists whose update operation replaces the
first matching key.  Machine-level aspects that the code never exercises
(float arithmetic, unicode word characters beyond ASCII) are modelled
conservatively: float literals are kept as their source text, and word
characters are ASCII alphanumerics plus underscore.

Functions whose Python originals recurse through data rebuilt from
strings (the evaluation engine, structural substitution, the file
loader) take an explicit fuel argument and are written as a
non-recursive step applied to the evaluator at smaller fuel, so every
definition is structurally recursive and computable by the kernel.
-/

/-- A Python value as reachable by the loader: None, bool, int, float,
str, list and dict.  Float literals are kept as their literal text since
no code path under study computes with them. -/
inductive Content where
  | null
  | bool (b : Bool)
  | int (n : Int)
  | float (lit : List Char)
  | str (s : List Char)
  | list (xs : List Content)
  | dict (kvs : List (Content × Content))

mutual

/-- Python `==` on modelled values (structural equality; bool/int and
float cross-type numeric equality is not modelled since no code path
under study compares across these types). -/
def pyEq : Content → Content → Bool
  | .null, .null => true
  | .bool a, .bool b => a == b
  | .int a, .int b => a == b
  | .float a, .float b => a == b
  | .str a, .str b => a == b
  | .list a, .list b => pyEqList a b
  | .dict a, .dict b => pyEqKV a b
  | _, _ => false

/-- Python `==` on lists, elementwise. -/
def pyEqList : List Content → List Content → Bool
  | [], [] => true
  | a :: as, b :: bs => pyEq a b && pyEqList as bs
  | _, _ => false

/-- Python `==` on dicts, as ordered key/value pairs (the dicts built by
this code never hold duplicate keys, and the code never compares dicts
that differ only in insertion order). -/
def pyEqKV : List (Content × Content) → List (Content × Content) → Bool
  | [], [] => true
  | (ka, va) :: as, (kb, vb) :: bs => pyEq ka kb && pyEq va vb && pyEqKV as bs
  | _, _ => false

end

/-- Python truthiness of a modelled value.  A float is treated as truthy:
no code path under study ever tests a float for truth. -/
def pyTruthy : Content → Bool
  | .null => false
  | .bool b => b
  | .int n => n != 0
  | .float _ => true
  | .str s => !s.isEmpty
  | .list xs => !xs.isEmpty
  | .dict kvs => !kvs.isEmpty

/-- Whether a value is a Python str. -/
def isStrContent : Content → Bool
  | .str _ => true
  | _ => false

/-- Regex word character `\w` (ASCII): letters, digits and underscore. -/
def isWordChar (c : Char) : Bool :=
  c.isAlphanum || c = '_'

/-- A character of the function-argument class `[\$\w\.\-_ =,]`. -/
def isArgChar (c : Char) : Bool :=
  c = '$' || isWordChar c || c = '.' || c = '-' || c = ' ' || c = '=' || c = ','

/-- Python `str.strip()` whitespace (ASCII whitespace characters). -/
def isPySpace (c : Char) : Bool :=
  c = ' ' || c = '\t' || c = '\n' || c = '\r' || c = el1 || c = el2
where
  el1 : Char := Char.ofNat 11  -- vertical tab
  el2 : Char := Char.ofNat 12  -- form feed

/-- Python `str.strip()`: drop leading and trailing whitespace. -/
def pyStrip (s : List Char) : List Char :=
  ((s.dropWhile isPySpace).reverse.dropWhile isPySpace).reverse

/-- Scanner for `re.findall(r"\$([\w_]+)", s)`: at each `$`, the maximal
nonempty run of word characters is one match and scanning resumes after
it; otherwise scanning advances one character.  The fuel argument only
bounds the recursion; each step consumes at least one character, so
`s.length` fuel is always enough. -/
def varScanFuel : Nat → List Char → List (List Char)
  | 0, _ => []
  | _, [] => []
  | n+1, c :: rest =>
    if c = '$' then
      let name := rest.takeWhile isWordChar
      if name.isEmpty then varScanFuel n rest
      else name :: varScanFuel n (rest.drop name.length)
    else varScanFuel n rest

/-- All `$variable` matches of a string, in order of occurrence. -/
def varScan (s : List Char) : List (List Char) :=
  varScanFuel s.length s

/-- After an opening `${`, try to match `[\w_]+\([\$\w\.\-_ =,]*\)\}`.
Returns the captured `name(args)` text and the number of characters
consumed.  Every component is a maximal munch followed by a delimiter
outside its class, so the match is deterministic (no backtracking). -/
def tryFuncBody (rest : List Char) : Option (List Char × Nat) :=
  let name := rest.takeWhile isWordChar
  if name.isEmpty then none
  else
    match rest.drop name.length with
    | '(' :: r2 =>
      let args := r2.takeWhile isArgChar
      (match r2.drop args.length with
       | ')' :: '\x7d' :: _ =>
           some (name ++ '(' :: (args ++ [')']), name.length + args.length + 3)
       | _ => none)
    | _ => none

/-- Scanner for `re.findall(function_regexp, s)`: at each `${` a full
function token is matched (scanning resumes after its `}`); on failure
the scan advances one character past the `$`. -/
def funcScanFuel : Nat → List Char → List (List Char)
  | 0, _ => []
  | _, [] => []
  | n+1, c :: rest =>
    if c = '$' then
      match rest with
      | '\x7b' :: r2 =>
        (match tryFuncBody r2 with
         | some (tok, k) => tok :: funcScanFuel n (r2.drop k)
         | none => funcScanFuel n rest)
      | _ => funcScanFuel n rest
    else funcScanFuel n rest

/-- All `${name(args)}` matches of a string, in order of occurrence. -/
def funcScan (s : List Char) : List (List Char) :=
  funcScanFuel s.length s

/-- Model of `extract_variables`: variable names of a string; on a
non-string argument `re.findall` raises `TypeError`, which the source
catches and turns into the empty list. -/
def extract_variables : Content → List (List Char)
  | .str s => varScan s
  | _ => []

/-- Model of `extract_functions`: function-call bodies of a string; on a
non-string argument `re.findall` raises `TypeError`, which the source
catches and turns into the empty list. -/
def extract_functions : Content → List (List Char)
  | .str s => funcScan s
  | _ => []

/-- Exceptions raised by the modelled code. -/
inductive PErr where
  | functionNotFound
  | paramsError
  | fileFormatError
  | modelFormatError
  | fileNotFoundError
  | apiNotFound
  | suiteNotFound
  | jsonDecodeError
  | valueError
  | typeError
  | attributeError
  | keyError
  | outOfFuel
deriving DecidableEq

/-- Digits possibly separated by single underscores, with the Python 3
rule that an integer literal other than `0` may not start with `0`. -/
def isPyIntDigits (s : List Char) : Bool :=
  noDoubleUnderscore s &&
  s.head? != some '_' && s.getLast? != some '_' &&
  (let d := s.filter (fun c => c != '_')
   !d.isEmpty && d.all Char.isDigit && (d.length == 1 || d.head? != some '0'))
where
  noDoubleUnderscore : List Char → Bool
    | a :: b :: rest => !(a = '_' && b = '_') && noDoubleUnderscore (b :: rest)
    | _ => true

/-- Numeric value of a digit/underscore run. -/
def digitsVal (s : List Char) : Nat :=
  (s.filter (fun c => c != '_')).foldl (fun acc c => acc * 10 + (c.toNat - 48)) 0

/-- Python `int` literal with at most one leading minus (as accepted by
`ast.literal_eval` on the argument character class). -/
def pyIntLit (s : List Char) : Option Int :=
  match s with
  | '-' :: rest => if isPyIntDigits rest then some (-(digitsVal rest : Int)) else none
  | _ => if isPyIntDigits s then some (digitsVal s : Int) else none

/-- Recognizer for a Python float literal over the argument character
class (digits with a dot and/or an exponent part, optional minus). -/
def isPyFloatLit (s : List Char) : Bool :=
  let body := match s with
    | '-' :: rest => rest
    | _ => s
  let parts := body.splitOn 'e'
  match parts with
  | [m] => mantissaWithDot m
  | [m, ex] => (mantissaWithDot m || (!m.isEmpty && m.all Char.isDigit)) && expPart ex
  | _ => false
where
  mantissaWithDot (m : List Char) : Bool :=
    match m.splitOn '.' with
    | [a, b] => (a ++ b).all Char.isDigit && !(a ++ b).isEmpty
    | _ => false
  expPart (ex : List Char) : Bool :=
    let digits := match ex with
      | '-' :: r => r
      | r => r
    !digits.isEmpty && digits.all Char.isDigit

/-- Model of `parse_string_value`: `ast.literal_eval` restricted to the
literals expressible in the argument character class (no quotes or
brackets can occur there); on `ValueError`/`SyntaxError` the raw string
is returned. -/
def parse_string_value (s : List Char) : Content :=
  if s = "True".toList then .bool true
  else if s = "False".toList then .bool false
  else if s = "None".toList then .null
  else
    match pyIntLit s with
    | some n => .int n
    | none => if isPyFloatLit s then .float s else .str s

/-- Parsed call: function name, positional args, keyword args. -/
structure FunctionMeta where
  func_name : List Char
  args : List Content
  kwargs : List (List Char × Content)

/-- Anchored match of `^([\w_]+)\(([\$\w\.\-_ =,]*)\)$`, returning the
name and argument-string captures. -/
def matchCallGrammar (s : List Char) : Option (List Char × List Char) :=
  let name := s.takeWhile isWordChar
  if name.isEmpty then none
  else
    match s.drop name.length with
    | '(' :: r2 =>
      let args := r2.takeWhile isArgChar
      (match r2.drop args.length with
       | [')'] => some (name, args)
       | _ => none)
    | _ => none

/-- Python `str.split(sep)` for a one-character separator (no maxsplit):
always returns at least one piece; empty pieces are kept. -/
def pySplit (s : List Char) (sep : Char) : List (List Char) :=
  match s with
  | [] => [[]]
  | c :: rest =>
    match pySplit rest sep with
    | first :: others => if c = sep then [] :: first :: others else (c :: first) :: others
    | [] => [[c]]

/-- Keyword-dict assignment for string keys: replace the first matching
key, else append (Python dict update semantics). -/
def dictSetS {α : Type} : List (List Char × α) → List Char → α → List (List Char × α)
  | [], k, v => [(k, v)]
  | (k', v') :: rest, k, v =>
    if k' = k then (k', v) :: rest else (k', v') :: dictSetS rest k v

/-- Lookup in a string-keyed dict (Python `dict.get`). -/
def dictGetS {α : Type} : List (List Char × α) → List Char → Option α
  | [], _ => none
  | (k', v') :: rest, k => if k' = k then some v' else dictGetS rest k

/-- The argument loop of `parse_function`: an argument containing `=` is
split on every `=`; the two-element unpacking `key, value = arg.split('=')`
raises `ValueError` unless the split has exactly two pieces; an argument
without `=` is appended to the positional list after literal coercion. -/
def parseArgsLoop : List (List Char) → FunctionMeta → Except PErr FunctionMeta
  | [], m => .ok m
  | arg :: rest, m =>
    if arg.contains '=' then
      match pySplit arg '=' with
      | [k, v] =>
          parseArgsLoop rest { m with kwargs := dictSetS m.kwargs k (parse_string_value v) }
      | _ => .error .valueError
    else
      parseArgsLoop rest { m with args := m.args ++ [parse_string_value arg] }

/-- Model of `parse_function`: match the call grammar (else
`FunctionNotFound`), strip all spaces from the argument string, split on
commas and run the argument loop. -/
def parse_function (content : List Char) : Except PErr FunctionMeta :=
  match matchCallGrammar content with
  | none => .error .functionNotFound
  | some (name, argsRaw) =>
    let args_str := argsRaw.filter (fun c => c != ' ')
    if args_str.isEmpty then .ok ⟨name, [], []⟩
    else parseArgsLoop (pySplit args_str ',') ⟨name, [], []⟩

/-- Dict lookup with Python `==` on keys (`dict.get`, `None` default is
represented by `Option`). -/
def dictGet : List (Content × Content) → Content → Option Content
  | [], _ => none
  | (k', v') :: rest, k => if pyEq k' k then some v' else dictGet rest k

/-- Dict lookup with an explicit default (`dict.get(k, d)`). -/
def dictGetD (kvs : List (Content × Content)) (k d : Content) : Content :=
  match dictGet kvs k with
  | some v => v
  | none => d

/-- Dict lookup returning Python `None` when the key is absent
(`dict.get(k)`). -/
def dictGetN (kvs : List (Content × Content)) (k : Content) : Content :=
  dictGetD kvs k .null

/-- Dict assignment: replace the value at the first matching key, else
append (Python insertion-order update semantics). -/
def dictSet : List (Content × Content) → Content → Content → List (Content × Content)
  | [], k, v => [(k, v)]
  | (k', v') :: rest, k, v =>
    if pyEq k' k then (k', v) :: rest else (k', v') :: dictSet rest k v

/-- Dict key removal (`dict.pop(k, default)` keeps the rest unchanged). -/
def dictRemove : List (Content × Content) → Content → List (Content × Content)
  | [], _ => []
  | (k', v') :: rest, k =>
    if pyEq k' k then rest else (k', v') :: dictRemove rest k

/-- `d.update(src)`: assign every pair of `src` into `d`, in order. -/
def dictUpdate (d src : List (Content × Content)) : List (Content × Content) :=
  src.foldl (fun acc kv => dictSet acc kv.1 kv.2) d

/-- Key membership (`k in d`). -/
def dictHasKey (kvs : List (Content × Content)) (k : Content) : Bool :=
  (dictGet kvs k).isSome

/-- Shorthand for a string key or string value. -/
def ckey (s : String) : Content :=
  .str s.toList

/-- Comma-space join of rendered pieces. -/
def joinComma : List (List Char) → List Char
  | [] => []
  | [x] => x
  | x :: rest => x ++ ',' :: ' ' :: joinComma rest

/-- Python `repr` of a value (fueled for the recursion into containers;
string escaping inside `repr` is not modelled beyond the quotes, and a
float renders as its literal text). -/
def pyRepr : Nat → Content → List Char
  | _, .null => "None".toList
  | _, .bool true => "True".toList
  | _, .bool false => "False".toList
  | _, .int n => (toString n).toList
  | _, .float lit => lit
  | _, .str s => sq :: (s ++ [sq])
  | 0, _ => []
  | n+1, .list xs => '[' :: (joinComma (xs.map (pyRepr n)) ++ [']'])
  | n+1, .dict kvs =>
      '\x7b' :: (joinComma (kvs.map (fun kv => pyRepr n kv.1 ++ ':' :: ' ' :: pyRepr n kv.2)) ++ ['\x7d'])
where
  sq : Char := Char.ofNat 39

/-- Python `str()` of a value: a str is itself, anything else renders as
its `repr`-style text. -/
def pyStr (fuel : Nat) : Content → List Char
  | .str s => s
  | c => pyRepr fuel c

/-- Python `s.replace(old, new, 1)`: replace the leftmost occurrence. -/
def replaceFirst : List Char → List Char → List Char → List Char
  | [], _, _ => []
  | c :: rest, pat, new =>
    if pat.isPrefixOf (c :: rest) then new ++ (c :: rest).drop pat.length
    else c :: replaceFirst rest pat new

/-- Python `s.replace(old, new)` with a nonempty pattern: replace every
non-overlapping occurrence, left to right (fueled; each step consumes at
least one character so `s.length` fuel suffices). -/
def replaceAllFuel : Nat → List Char → List Char → List Char → List Char
  | 0, s, _, _ => s
  | _, [], _, _ => []
  | n+1, c :: rest, pat, new =>
    if !pat.isEmpty && pat.isPrefixOf (c :: rest) then
      new ++ replaceAllFuel n ((c :: rest).drop pat.length) pat new
    else c :: replaceAllFuel n rest pat new

/-- Python `s.replace(old, new)` (the patterns passed by this code are
never empty). -/
def replaceAll (s pat new : List Char) : List Char :=
  replaceAllFuel s.length s pat new

/-- One level of `substitute_variables_with_mapping`: bools and numerics
pass through, falsy values pass through, containers recurse, and a
string is run through the mapping loop — a whole-string match replaces
the value entirely, otherwise `str.replace` splices the mapped text in;
`replace` on a non-string receiver (after a whole-match replacement by a
non-string earlier in the loop) raises `AttributeError`, and a
non-string mapping key passed to `replace` raises `TypeError`. -/
def substStep (recur : Content → List (Content × Content) → Except PErr Content)
    (fuel : Nat) (content : Content) (mapping : List (Content × Content)) :
    Except PErr Content :=
  match content with
  | .bool b => .ok (.bool b)
  | .int n => .ok (.int n)
  | .float lit => .ok (.float lit)
  | c =>
    if !pyTruthy c then .ok c
    else
      match c with
      | .list xs => (xs.mapM (fun x => recur x mapping)).map .list
      | .dict kvs =>
          (kvs.foldlM (fun acc (kv : Content × Content) => do
            let k ← recur kv.1 mapping
            let v ← recur kv.2 mapping
            pure (dictSet acc k v)) []).map .dict
      | s0 =>
          mapping.foldlM (fun cur kv =>
            if pyEq cur kv.1 then .ok kv.2
            else
              match cur with
              | .str cs =>
                (match kv.1 with
                 | .str vs => .ok (.str (replaceAll cs vs (pyStr fuel kv.2)))
                 | _ => .error .typeError)
              | _ => .error .attributeError) s0

/-- Model of `substitute_variables_with_mapping` (fueled). -/
def substitute_variables_with_mapping :
    Nat → Content → List (Content × Content) → Except PErr Content
  | 0 => fun _ _ => .error .outOfFuel
  | n+1 => substStep (substitute_variables_with_mapping n) n

/-- A bound function: called with positional and keyword arguments
(external user code, assumed to return a value). -/
def PyFunc : Type :=
  List Content → List (List Char × Content) → Content

/-- The state of a `TestCaseParser`: explicit variable and function
bindings, whether `file_path` is set, and the external
`ModuleUtils.search_conf_item` fallback for each kind (returning `none`
when the item is not found there, which the source converts to
`ParamsError`). -/
structure TestCaseParser where
  _variables : List (List Char × Content)
  _functions : List (List Char × PyFunc)
  file_path_set : Bool
  conf_variable : List Char → Option Content
  conf_function : List Char → Option PyFunc

/-- Model of `get_bind_variable` / `_get_bind_item "variable"`. -/
def get_bind_variable (p : TestCaseParser) (name : List Char) : Except PErr Content :=
  match dictGetS p._variables name with
  | some v => .ok v
  | none =>
    if p.file_path_set then
      match p.conf_variable name with
      | some v => .ok v
      | none => .error .paramsError
    else .error .paramsError

/-- Model of `get_bind_function` / `_get_bind_item "function"`. -/
def get_bind_function (p : TestCaseParser) (name : List Char) : Except PErr PyFunc :=
  match dictGetS p._functions name with
  | some f => .ok f
  | none =>
    if p.file_path_set then
      match p.conf_function name with
      | some f => .ok f
      | none => .error .paramsError
    else .error .paramsError

/-- Keyword arguments for a `func(*args, **kwargs)` call must be a dict
with string keys. -/
def contentToKwargs : Content → Except PErr (List (List Char × Content))
  | .dict kvs =>
      kvs.foldlM (fun acc kv =>
        match kv.1 with
        | .str k => .ok (acc ++ [(k, kv.2)])
        | _ => .error .typeError) []
  | _ => .error .typeError

/-- The loop of `_eval_content_functions`: for each extracted token,
parse it, evaluate its args and kwargs recursively, resolve and invoke
the bound callable; if the whole current content equals the full
`${...}` token the content becomes the call result, otherwise the
result's string form is spliced over the leftmost occurrence
(`replace(..., 1)` on a non-string receiver raises `AttributeError`). -/
def evalFuncsLoop (recur : Content → Except PErr Content) (fuel : Nat)
    (p : TestCaseParser) : List (List Char) → Content → Except PErr Content
  | [], c => .ok c
  | tok :: toks, c => do
    let meta ← parse_function tok
    let argsC ← recur (.list meta.args)
    let args ← (match argsC with
      | .list xs => Except.ok xs
      | _ => Except.error PErr.typeError)
    let kwC ← recur (.dict (meta.kwargs.map (fun kv => (.str kv.1, kv.2))))
    let kwargs ← contentToKwargs kwC
    let f ← get_bind_function p meta.func_name
    let v := f args kwargs
    let tokFull := '$' :: '\x7b' :: (tok ++ ['\x7d'])
    let c' ← (if pyEq c (.str tokFull) then Except.ok v
      else
        match c with
        | .str cs => Except.ok (.str (replaceFirst cs tokFull (pyStr fuel v)))
        | _ => Except.error PErr.attributeError)
    evalFuncsLoop recur fuel p toks c'

/-- The loop of `_eval_content_variables`: for each extracted variable
name, resolve its binding; a whole-content match replaces the value
entirely, otherwise the leftmost `$name` occurrence is spliced
(`replace` on a non-string receiver raises `AttributeError`).  Values
substituted here are not re-evaluated. -/
def evalVarsLoop (fuel : Nat) (p : TestCaseParser) :
    List (List Char) → Content → Except PErr Content
  | [], c => .ok c
  | name :: names, c => do
    let v ← get_bind_variable p name
    let varTok := '$' :: name
    let c' ← (if pyEq c (.str varTok) then Except.ok v
      else
        match c with
        | .str cs => Except.ok (.str (replaceFirst cs varTok (pyStr fuel v)))
        | _ => Except.error PErr.attributeError)
    evalVarsLoop fuel p names c'

/-- One level of `eval_content_with_bind_actions`: None and non-string
scalars pass through, containers recurse elementwise (dict values are
rebuilt with evaluated keys and values), and a string is stripped, run
through the function pass and then through the variable pass — the
function pass always precedes the variable pass. -/
def evalStep (recur : Content → Except PErr Content) (fuel : Nat)
    (p : TestCaseParser) : Content → Except PErr Content
  | .null => .ok .null
  | .list xs => (xs.mapM recur).map .list
  | .dict kvs =>
      (kvs.foldlM (fun acc (kv : Content × Content) => do
        let k ← recur kv.1
        let v ← recur kv.2
        pure (dictSet acc k v)) []).map .dict
  | .str s => do
      let s1 := pyStrip s
      let c1 ← evalFuncsLoop recur fuel p (extract_functions (.str s1)) (.str s1)
      evalVarsLoop fuel p (extract_variables c1) c1
  | c => .ok c

/-- Model of `eval_content_with_bind_actions` (fueled). -/
def eval_content_with_bind_actions :
    Nat → TestCaseParser → Content → Except PErr Content
  | 0 => fun _ _ => .error .outOfFuel
  | n+1 => fun p => evalStep (eval_content_with_bind_actions n p) n p

/-- The process-wide `overall_def_dict`: api and suite definitions by
name. -/
structure DefStore where
  api : List (List Char × Content)
  suite : List (List Char × Content)

/-- Model of `overall_def_dict.get(ref_type, {})`. -/
def storeGet (store : DefStore) (ref_type : List Char) : List (List Char × Content) :=
  if ref_type = "api".toList then store.api
  else if ref_type = "suite".toList then store.suite
  else []

namespace YamlCaseLoader

/-- Model of `_get_test_definition`: look the name up in the store for
the given kind; a missing name, and equally a present name whose stored
body is falsy, raises `ApiNotFound` for kind `"api"` and `SuiteNotFound`
otherwise. -/
def get_test_definition (store : DefStore) (name ref_type : List Char) :
    Except PErr Content :=
  match dictGetS (storeGet store ref_type) name with
  | some block =>
      if pyTruthy block then .ok block
      else if ref_type = "api".toList then .error .apiNotFound
      else .error .suiteNotFound
  | none =>
      if ref_type = "api".toList then .error .apiNotFound
      else .error .suiteNotFound

/-- The `block.get("function_meta").get("args", [])` step of
`_get_block_by_name`: a non-dict block, or a missing or non-dict
`function_meta` (so that the second `.get` is called on `None` or on a
non-dict), raises `AttributeError`. -/
def getDefArgs (block : Content) : Except PErr Content :=
  match block with
  | .dict kvs =>
    (match dictGet kvs (ckey "function_meta") with
     | some (.dict fm) => .ok (dictGetD fm (ckey "args") (.list []))
     | some _ => .error .attributeError
     | none => .error .attributeError)
  | _ => .error .attributeError

/-- `len(...)` and `enumerate(...)` over the declared args: lists
enumerate their elements, strings their characters, dicts their keys;
anything else raises `TypeError`. -/
def toIterList : Content → Except PErr (List Content)
  | .list xs => .ok xs
  | .str s => .ok (s.map (fun c => .str [c]))
  | .dict kvs => .ok (kvs.map (fun kv => kv.1))
  | _ => .error .typeError

/-- Model of `_get_block_by_name`: parse the reference call, look up the
definition, compare the positional-argument count with the declared
parameter count (`ParamsError` on mismatch), build the rename mapping
(identity positions skipped) and apply the structural substitution only
when the mapping is nonempty. -/
def get_block_by_name (fuel : Nat) (store : DefStore)
    (ref_call ref_type : List Char) : Except PErr Content := do
  let function_meta ← parse_function ref_call
  let call_args := function_meta.args
  let block ← get_test_definition store function_meta.func_name ref_type
  let def_args_c ← getDefArgs block
  let def_args ← toIterList def_args_c
  if call_args.length ≠ def_args.length then .error .paramsError
  else
    let args_mapping := (def_args.zip call_args).foldl
      (fun m (iv : Content × Content) =>
        if pyEq iv.2 iv.1 then m else dictSet m iv.1 iv.2) []
    if args_mapping.isEmpty then .ok block
    else substitute_variables_with_mapping fuel block args_mapping

/-- One field merge of `_override_block`: after `current_block` has been
updated with the definition's fields, the saved field values decide the
outcome — a falsy definition side re-assigns the case's saved value
(possibly `None`), a falsy case side re-assigns the definition's value,
and when both are truthy the code stores the return value of
`current.extend(def)`, which in Python is `None`; `extend` on a
non-list receiver raises `AttributeError`, and a non-iterable argument
raises `TypeError`. -/
def mergeCommandField (d : List (Content × Content)) (k : Content)
    (defV curV : Content) : Except PErr (List (Content × Content)) :=
  if !pyTruthy defV then .ok (dictSet d k curV)
  else if !pyTruthy curV then .ok (dictSet d k defV)
  else
    match curV with
    | .list _ =>
      (match defV with
       | .list _ => .ok (dictSet d k .null)
       | .str _ => .ok (dictSet d k .null)
       | .dict _ => .ok (dictSet d k .null)
       | _ => .error .typeError)
    | _ => .error .attributeError

/-- Model of `_override_block`: save the three command-list fields from
both blocks, update the case block with every definition field, then
merge `pre_command`, `post_command` and `verify` in turn. -/
def override_block (def_block current_block : Content) : Except PErr Content :=
  match def_block, current_block with
  | .dict db, .dict cb =>
    let def_pre := dictGetN db (ckey "pre_command")
    let cur_pre := dictGetN cb (ckey "pre_command")
    let def_post := dictGetN db (ckey "post_command")
    let cur_post := dictGetN cb (ckey "post_command")
    let def_verify := dictGetN db (ckey "verify")
    let cur_verify := dictGetN cb (ckey "verify")
    let cb1 := dictUpdate cb db
    do
      let cb2 ← mergeCommandField cb1 (ckey "pre_command") def_pre cur_pre
      let cb3 ← mergeCommandField cb2 (ckey "post_command") def_post cur_post
      let cb4 ← mergeCommandField cb3 (ckey "verify") def_verify cur_verify
      .ok (.dict cb4)
  | _, _ => .error .attributeError

end YamlCaseLoader

/-- Lowercase a path fragment (`str.lower`, ASCII). -/
def pyLower (s : List Char) : List Char :=
  s.map Char.toLower

/-- The path component after the last `/`. -/
def lastSegment (p : List Char) : List Char :=
  ((p.reverse.takeWhile (fun c => c != '/')).reverse)

/-- The extension part of `os.path.splitext`: the suffix from the last
dot of the basename, provided some earlier basename character is not a
dot (so dotfiles such as `.bashrc` have no extension). -/
def splitextExt (p : List Char) : List Char :=
  let base := lastSegment p
  match (base.reverse.takeWhile (fun c => c != '.')) with
  | suffix =>
    if suffix.length = base.length then []  -- no dot at all
    else
      let dotIdx := base.length - suffix.length - 1
      if (base.take dotIdx).any (fun c => c != '.') then base.drop dotIdx
      else []

/-- `os.path.isabs` on a POSIX path. -/
def isAbsPath (p : List Char) : Bool :=
  p.head? = some '/'

/-- `os.path.join(a, b)` on POSIX paths. -/
def pyJoin (a b : List Char) : List Char :=
  if isAbsPath b then b
  else if a.isEmpty || a.getLast? = some '/' then a ++ b
  else a ++ '/' :: b

/-- Substring test (`pat in s` for strings). -/
def containsSub (s pat : List Char) : Bool :=
  (List.range (s.length + 1)).any (fun i => pat.isPrefixOf (s.drop i))

/-- The external world of the loaders: the filesystem queries and the
raw YAML/JSON decoding that the source delegates to `os`, `io`, `yaml`,
`json` and `FileSystemUtils.get_legal_filename`.  `walk` lists
`(dirpath, filenames)` pairs as `os.walk` would. -/
structure World where
  isFile : List Char → Bool
  isDir : List Char → Bool
  pathExists : List Char → Bool
  walk : List Char → List (List Char × List (List Char))
  getcwd : List Char
  yamlDecode : List Char → Except PErr Content
  jsonDecode : List Char → Except PErr Content
  legalFilename : List Char → List Char

namespace Yaml

/-- Model of `Yaml._check_format`: an empty (falsy) document or one
whose root is neither a list nor a dict is a `FileFormatError`. -/
def check_format (content : Content) : Except PErr Content :=
  if !pyTruthy content then .error .fileFormatError
  else
    match content with
    | .list _ => .ok content
    | .dict _ => .ok content
    | _ => .error .fileFormatError

/-- Model of `Yaml.load_file`: a missing file raises
`FileNotFoundError`; `.json` decodes as JSON (`JSONDecodeError` becomes
`FileFormatError`), `.yaml`/`.yml` (case-insensitively) decode as YAML,
and any other suffix returns `[]` with a warning; a decoded document is
format-checked. -/
def load_file (w : World) (file_path : List Char) : Except PErr Content :=
  if !w.isFile file_path then .error .fileNotFoundError
  else
    let suffix := pyLower (splitextExt file_path)
    if suffix = ".json".toList then
      match w.jsonDecode file_path with
      | .error .jsonDecodeError => .error .fileFormatError
      | .error e => .error e
      | .ok c => check_format c
    else if suffix = ".yaml".toList ∨ suffix = ".yml".toList then
      match w.yamlDecode file_path with
      | .error e => .error e
      | .ok c => check_format c
    else .ok (.list [])

/-- Recognized case-file extensions (`str.endswith(('.yml', '.yaml',
'.json'))`). -/
def hasCaseExt (f : List Char) : Bool :=
  ".yml".toList.isSuffixOf f || ".yaml".toList.isSuffixOf f ||
    ".json".toList.isSuffixOf f

/-- Model of `Yaml.load_folder_files` for one folder path (the only form
the modelled loaders use): a missing folder yields `[]`; otherwise every
walked directory contributes its recognized files joined onto its
dirpath, and the non-recursive mode keeps only the first walked level. -/
def load_folder_files (w : World) (folder : List Char) (recursive : Bool) :
    List (List Char) :=
  if !w.pathExists folder then []
  else
    ((if recursive then w.walk folder else (w.walk folder).take 1).map
      (fun d => (d.2.filter hasCaseExt).map (pyJoin d.1))).flatten

end Yaml

/-- A TestSet under assembly: the `testset` dict of
`YamlCaseLoader.load_file` (`name` is absent until a project block sets
it). -/
structure TestSet where
  file_path : List Char
  project : List (Content × Content)
  cases : List Content
  name : Option Content

/-- The rendered TestSet dict, as stored for a suite definition (keys in
insertion order: `file_path`, `project`, `cases`, then `name` when
set). -/
def testsetToContent (ts : TestSet) : Content :=
  .dict ([(ckey "file_path", .str ts.file_path),
          (ckey "project", .dict ts.project),
          (ckey "cases", .list ts.cases)] ++
         (match ts.name with
          | some n => [(ckey "name", n)]
          | none => []))

/-- `re.search("^[\w-]+$", s)`: the case-id pattern, matching the whole
string (or the whole string minus one trailing newline, which `$` also
accepts). -/
def matchWordP (s : List Char) : Bool :=
  let core := if s.getLast? = some '\n' then s.dropLast else s
  !core.isEmpty && core.all (fun c => isWordChar c || c = '-')

/-- Iterating the decoded document root (`for item in test_cases`):
lists yield elements, dicts their keys, strings their characters; a
non-iterable root raises `TypeError` in Python, which the caller's
handler turns into an empty iteration here (the format check already
excludes it). -/
def topIter : Content → List Content
  | .list xs => xs
  | .dict kvs => kvs.map (fun kv => kv.1)
  | .str s => s.map (fun c => .str [c])
  | _ => []

/-- `testset["cases"].extend(value)`: lists extend elementwise, strings
by character, dicts by key; anything else raises `TypeError`. -/
def iterForExtend : Content → Except PErr (List Content)
  | .list xs => .ok xs
  | .str s => .ok (s.map (fun c => .str [c]))
  | .dict kvs => .ok (kvs.map (fun kv => kv.1))
  | _ => .error .typeError

/-- `block["cases"]`: item access on the resolved suite block (a missing
key raises `KeyError`, a non-dict block `TypeError`). -/
def contentGetItem (c : Content) (k : Content) : Except PErr Content :=
  match c with
  | .dict kvs =>
    (match dictGet kvs k with
     | some v => .ok v
     | none => .error .keyError)
  | _ => .error .typeError

namespace YamlCaseLoader

/-- One iteration of the `load_file` item loop: a non-dict or
multi-entry item is a format error; a `project` block merges into the
TestSet metadata and sets the set name; a `case` block pops id and
desc, validates the id, builds the display name, and then either merges
a referenced api definition, splices a referenced suite's cases, or
appends the block unchanged; any other key only logs a warning.  Every
raise in this body happens before the TestSet is modified, so an error
leaves the TestSet exactly as it was. -/
def processItem (fuel : Nat) (w : World) (store : DefStore) (ts : TestSet)
    (item : Content) : Except PErr TestSet :=
  match item with
  | .dict kvs =>
    if kvs.length ≠ 1 then .error .fileFormatError
    else
      match kvs.getLast? with
      | none => .error .fileFormatError
      | some (key, test_block) =>
        match test_block with
        | .dict tb =>
          if pyEq key (ckey "project") then
            .ok { ts with
                  project := dictUpdate ts.project tb,
                  name := some (dictGetD tb (ckey "module")
                                  (ckey "Default Test Set")) }
          else if pyEq key (ckey "case") then
            let case_id := dictGetD tb (ckey "id") (ckey "")
            let tb1 := dictRemove tb (ckey "id")
            let desc := dictGetD tb1 (ckey "desc") (ckey "")
            let tb2 := dictRemove tb1 (ckey "desc")
            if !pyTruthy case_id then .error .modelFormatError
            else
              match case_id with
              | .str cid =>
                if !matchWordP cid then .error .modelFormatError
                else
                  let nm := w.legalFilename (cid ++ '[' :: (pyStr fuel desc ++ [']']))
                  let tb3 := dictSet tb2 (ckey "name") (.str nm)
                  if dictHasKey tb3 (ckey "api") then
                    match dictGetN tb3 (ckey "api") with
                    | .str ref_call => do
                        let def_block ← get_block_by_name fuel store ref_call "api".toList
                        let merged ← override_block def_block (.dict tb3)
                        .ok { ts with cases := ts.cases ++ [merged] }
                    | _ => .error .typeError
                  else if dictHasKey tb3 (ckey "suite") then
                    match dictGetN tb3 (ckey "suite") with
                    | .str ref_call => do
                        let block ← get_block_by_name fuel store ref_call "suite".toList
                        let suite_cases ← contentGetItem block (ckey "cases")
                        let ext ← iterForExtend suite_cases
                        .ok { ts with cases := ts.cases ++ ext }
                    | _ => .error .typeError
                  else .ok { ts with cases := ts.cases ++ [.dict tb3] }
              | _ => .error .typeError
          else .ok ts
        | _ => .error .fileFormatError
  | _ => .error .fileFormatError

/-- The item loop with the source's blanket `except`: the first raise
abandons the remaining items and keeps the TestSet assembled so far. -/
def processItems (step : TestSet → Content → Except PErr TestSet) :
    List Content → TestSet → TestSet
  | [], ts => ts
  | item :: rest, ts =>
    match step ts item with
    | .ok ts' => processItems step rest ts'
    | .error _ => ts

/-- Model of `YamlCaseLoader.load_file`: a missing file raises
`FileNotFoundError` before the `try` block; inside it, the document is
decoded and the item loop runs, and any exception is caught and logged
while the `finally` clause returns the (possibly partial) TestSet. -/
def load_file (fuel : Nat) (w : World) (store : DefStore)
    (yaml_file : List Char) : Except PErr TestSet :=
  let testset : TestSet := ⟨yaml_file, [], [], none⟩
  if !w.isFile yaml_file then .error .fileNotFoundError
  else
    .ok (match Yaml.load_file w yaml_file with
      | .error _ => testset
      | .ok tc => processItems (processItem fuel w store) (topIter tc) testset)

end YamlCaseLoader

/-- Warnings emitted through `logger.log_warning` by the loaders. -/
inductive LogEvent where
  | apiDefinitionDuplicated (name : List Char)
deriving DecidableEq

/-- The Python `function_meta` dict. -/
def metaToContent (m : FunctionMeta) : Content :=
  .dict [(ckey "func_name", .str m.func_name),
         (ckey "args", .list m.args),
         (ckey "kwargs", .dict (m.kwargs.map (fun kv => (.str kv.1, kv.2))))]

namespace YamlCaseLoader

/-- The registration tail of the `load_api_file` loop: a duplicate name
logs a warning, then the entry is written unconditionally (last write
wins). -/
def registerApiDef (store : DefStore) (meta : FunctionMeta)
    (api_dict : List (Content × Content)) : DefStore × List LogEvent :=
  let warns := if (dictGetS store.api meta.func_name).isSome then
      [LogEvent.apiDefinitionDuplicated meta.func_name]
    else []
  let body : Content := .dict (dictSet api_dict (ckey "function_meta") (metaToContent meta))
  ({ store with api := dictSetS store.api meta.func_name body }, warns)

/-- Model of `load_api_file`: the decoded document must be a list of
single-entry `api` mappings each carrying a `def` call; each parsed
definition is registered (duplicates overwrite with a warning).
Structural violations raise and are not caught here. -/
def load_api_file (w : World) (store : DefStore) (file_path : List Char) :
    Except PErr (DefStore × List LogEvent) := do
  let api_items ← Yaml.load_file w file_path
  match api_items with
  | .list items =>
      items.foldlM (fun (acc : DefStore × List LogEvent) item =>
        match item with
        | .dict kvs =>
          if kvs.length ≠ 1 then .error .fileFormatError
          else
            (match kvs.getLast? with
             | none => .error .fileFormatError
             | some (key, api_block) =>
               (match api_block with
                | .dict ad =>
                  if !pyEq key (ckey "api") || !dictHasKey ad (ckey "def") then
                    .error .fileFormatError
                  else
                    (match dictGetN ad (ckey "def") with
                     | .str api_def => do
                         let meta ← parse_function api_def
                         let r := registerApiDef acc.1 meta (dictRemove ad (ckey "def"))
                         .ok (r.1, acc.2 ++ r.2)
                     | _ => .error .typeError)
                | _ => .error .fileFormatError))
        | _ => .error .fileFormatError) (store, [])
  | _ => .error .fileFormatError

/-- The suite-registration step of `load_dependencies`: the stored suite
body is the loaded TestSet dict plus its `function_meta`; no duplicate
check is made and no warning is logged for suites. -/
def registerSuiteDef (store : DefStore) (meta : FunctionMeta)
    (suite : Content) : DefStore × List LogEvent :=
  ({ store with suite := dictSetS store.suite meta.func_name suite }, [])

/-- One iteration of the suite-loading loop of `load_dependencies`: load
the suite file as a case document, require a `def` call in its project
section (`ParamsError` otherwise), parse it and register the suite. -/
def load_suite_file (fuel : Nat) (w : World) (store : DefStore)
    (suite_file : List Char) : Except PErr (DefStore × List LogEvent) := do
  let suite ← load_file fuel w store suite_file
  if !(dictGet suite.project (ckey "def")).isSome then .error .paramsError
  else
    match dictGetN suite.project (ckey "def") with
    | .str call_func => do
        let function_meta ← parse_function call_func
        let body := match testsetToContent suite with
          | .dict kvs => Content.dict (dictSet kvs (ckey "function_meta")
              (metaToContent function_meta))
          | c => c
        .ok (registerSuiteDef store function_meta body)
    | _ => .error .typeError

end YamlCaseLoader

/-- The `testcases_cache_mapping`: resolved absolute path to TestSet
list. -/
def Cache : Type :=
  List (List Char × List TestSet)

/-- Cache lookup. -/
def cacheGet : Cache → List Char → Option (List TestSet)
  | [], _ => none
  | (k', v') :: rest, k => if k' = k then some v' else cacheGet rest k

/-- Cache store (replace or append). -/
def cacheSet : Cache → List Char → List TestSet → Cache
  | [], k, v => [(k, v)]
  | (k', v') :: rest, k, v =>
    if k' = k then (k', v) :: rest else (k', v') :: cacheSet rest k v

/-- The path resolution done first by the single-path branch of
`load_files`: a relative path is joined onto the working directory. -/
def absPath (w : World) (p : List Char) : List Char :=
  if isAbsPath p then p else pyJoin w.getcwd p

/-- Python `set(paths)` as iterated by `load_files`, modelled as
first-occurrence deduplication (the source's iteration order over the
set is implementation-defined; nothing proved below depends on it). -/
def pySetList : List (List Char) → List (List Char)
  | [] => []
  | p :: rest => p :: (pySetList rest).filter (fun q => q ≠ p)

/-- The argument of `load_files`: one path or a collection of paths. -/
inductive PathArg where
  | single (p : List Char)
  | many (ps : List (List Char))

namespace YamlCaseLoader

/-- One level of `load_files`.  A collection iterates its distinct
members, skipping any path containing `dependencies` and dropping empty
results (cache updates made by the skipped-result calls are kept).  A
single path is resolved to an absolute path; a cache hit returns the
cached list at once, otherwise a directory loads its recognized files,
a file loads one TestSet (kept only if it has cases; the source's
`except FileFormatError` arm is unreachable because `load_file` only
raises for a missing file), and anything else logs an error and yields
`[]`; the result is cached before returning. -/
def loadFilesStep
    (recur : World → DefStore → Cache → PathArg → List TestSet × Cache)
    (fuel : Nat) (w : World) (store : DefStore) (cache : Cache) :
    PathArg → List TestSet × Cache
  | .many ps =>
      (pySetList ps).foldl (fun (acc : List TestSet × Cache) fp =>
        if containsSub fp "dependencies".toList then acc
        else
          let r := recur w store acc.2 (.single fp)
          if r.1.isEmpty then (acc.1, r.2) else (acc.1 ++ r.1, r.2))
        ([], cache)
  | .single p0 =>
      let path := absPath w p0
      match cacheGet cache path with
      | some l => (l, cache)
      | none =>
        if w.isDir path then
          let files := Yaml.load_folder_files w path true
          let r := recur w store cache (.many files)
          (r.1, cacheSet r.2 path r.1)
        else if w.isFile path then
          let l := match load_file fuel w store path with
            | .ok ts => if ts.cases.isEmpty then [] else [ts]
            | .error _ => []
          (l, cacheSet cache path l)
        else ([], cacheSet cache path [])

/-- Model of `YamlCaseLoader.load_files` (fueled). -/
def load_files : Nat → World → DefStore → Cache → PathArg → List TestSet × Cache
  | 0 => fun _ _ cache _ => ([], cache)
  | n+1 => fun w store cache pa => loadFilesStep (load_files n) n w store cache pa

end YamlCaseLoader

/-!  Concrete instances used by the counterexamples and witnesses. -/

/-- A parser with no bindings, no file path and an empty fallback. -/
def pTriv : TestCaseParser :=
  ⟨[], [], false, fun _ => none, fun _ => none⟩

/-- A parser binding variable `v` to `7` and function `f` to a callable
returning the string `$v`. -/
def pDemo : TestCaseParser :=
  ⟨[("v".toList, .int 7)],
   [("f".toList, fun _ _ => .str "$v".toList)],
   false, fun _ => none, fun _ => none⟩

/-- A parser binding variable `v` to the literal text of a function
token and `f` to a constant callable. -/
def pDemo2 : TestCaseParser :=
  ⟨[("v".toList, .str "$\x7bf()\x7d".toList)],
   [("f".toList, fun _ _ => .int 9)],
   false, fun _ => none, fun _ => none⟩

/-- A store holding a two-parameter api definition `login($u, $p)`. -/
def st5 : DefStore :=
  ⟨[("login".toList, .dict [(ckey "function_meta",
      .dict [(ckey "func_name", ckey "login"),
             (ckey "args", .list [ckey "$u", ckey "$p"]),
             (ckey "kwargs", .dict [])]),
     (ckey "request", .str "/auth/$u/$p".toList)])], []⟩

/-- A world with no files at all. -/
def wNone : World :=
  ⟨fun _ => false, fun _ => false, fun _ => false, fun _ => [], "/cwd".toList,
   fun _ => .error .fileNotFoundError, fun _ => .error .fileNotFoundError,
   fun s => s⟩

/-- A one-project one-case document whose project declares `def s()`. -/
def doc1 : Content :=
  .list [.dict [(ckey "project",
                 .dict [(ckey "module", ckey "M"), (ckey "def", .str "s()".toList)])],
         .dict [(ckey "case",
                 .dict [(ckey "id", ckey "c1"), (ckey "desc", ckey "d"),
                        (ckey "pre_command", .list [ckey "P"])])]]

/-- A world holding exactly the file `/cwd/t.yaml` with content `doc1`
(the identity filename sanitizer). -/
def w1 : World :=
  ⟨fun p => p = "/cwd/t.yaml".toList, fun _ => false, fun _ => false, fun _ => [],
   "/cwd".toList,
   fun p => if p = "/cwd/t.yaml".toList then .ok doc1 else .error .fileNotFoundError,
   fun _ => .error .fileNotFoundError, fun s => s⟩

/-- The TestSet that `load_file` assembles from `doc1`. -/
def ts1 : TestSet :=
  ⟨"/cwd/t.yaml".toList,
   [(ckey "module", ckey "M"), (ckey "def", .str "s()".toList)],
   [.dict [(ckey "pre_command", .list [ckey "P"]), (ckey "name", ckey "c1[d]")]],
   some (ckey "M")⟩

/-!  Helper lemmas. -/

/-- A string without `$` has no variable-token matches, at any fuel. -/
theorem varScanFuel_no_dollar :
    ∀ (n : Nat) (s : List Char), '$' ∉ s → varScanFuel n s = [] := by
  intro n
  induction n with
  | zero => intro s _; cases s <;> rfl
  | succ n ih =>
    intro s h
    cases s with
    | nil => rfl
    | cons c rest =>
      have hc : ¬(c = '$') := fun e => h (e ▸ List.mem_cons_self c rest)
      simp only [varScanFuel, if_neg hc]
      exact ih rest (fun hm => h (List.mem_cons_of_mem c hm))

/-- A string without `$` has no function-token matches, at any fuel. -/
theorem funcScanFuel_no_dollar :
    ∀ (n : Nat) (s : List Char), '$' ∉ s → funcScanFuel n s = [] := by
  intro n
  induction n with
  | zero => intro s _; cases s <;> rfl
  | succ n ih =>
    intro s h
    cases s with
    | nil => rfl
    | cons c rest =>
      have hc : ¬(c = '$') := fun e => h (e ▸ List.mem_cons_self c rest)
      simp only [funcScanFuel, if_neg hc]
      exact ih rest (fun hm => h (List.mem_cons_of_mem c hm))

/-- Lookup after a string-keyed write finds the written value. -/
theorem dictGetS_dictSetS {α : Type} :
    ∀ (d : List (List Char × α)) (k : List Char) (v : α),
      dictGetS (dictSetS d k v) k = some v := by
  intro d k v
  induction d with
  | nil => simp [dictSetS, dictGetS]
  | cons kv rest ih =>
    by_cases hk : kv.1 = k
    · simp [dictSetS, dictGetS, hk]
    · simp [dictSetS, dictGetS, hk, ih]

/-- Cache lookup after a cache write finds the written value. -/
theorem cacheGet_cacheSet :
    ∀ (c : Cache) (k : List Char) (v : List TestSet),
      cacheGet (cacheSet c k v) k = some v := by
  intro c k v
  induction c with
  | nil => simp [cacheSet, cacheGet]
  | cons kv rest ih =>
    by_cases hk : kv.1 = k
    · simp [cacheSet, cacheGet, hk]
    · simp [cacheSet, cacheGet, hk, ih]

/-- `takeWhile` passes over a prefix whose characters all satisfy the
predicate. -/
theorem takeWhile_append_all (p : Char → Bool) :
    ∀ (xs ys : List Char), (∀ c ∈ xs, p c = true) →
      (xs ++ ys).takeWhile p = xs ++ ys.takeWhile p := by
  intro xs ys h
  induction xs with
  | nil => simp
  | cons c rest ih =>
    have hc : p c = true := h c (List.mem_cons_self c rest)
    simp [List.takeWhile_cons, hc, ih (fun d hd => h d (List.mem_cons_of_mem c hd))]

/-- Dropping the length of a prefix leaves the suffix. -/
theorem drop_length_append :
    ∀ (xs ys : List Char), (xs ++ ys).drop xs.length = ys := by
  intro xs ys
  induction xs with
  | nil => simp
  | cons c rest ih => simp [ih]

/-- Splitting on an absent separator yields the single original piece. -/
theorem pySplit_no_sep :
    ∀ (s : List Char) (sep : Char), sep ∉ s → pySplit s sep = [s] := by
  intro s sep h
  induction s with
  | nil => rfl
  | cons c rest ih =>
    have hc : ¬(c = sep) := fun e => h (e ▸ List.mem_cons_self c rest)
    have hr := ih (fun hm => h (List.mem_cons_of_mem c hm))
    simp only [pySplit, hr, if_neg hc]

/-- The anchored call grammar accepts `name(arg)` built from a word-char
name and argument-class characters. -/
theorem matchCallGrammar_wf (name arg : List Char)
    (hn : name ≠ []) (hw : ∀ c ∈ name, isWordChar c = true)
    (ha : ∀ c ∈ arg, isArgChar c = true) :
    matchCallGrammar (name ++ '(' :: (arg ++ [')'])) = some (name, arg) := by
  have hlp : isWordChar '(' = false := by decide
  have hrp : isArgChar ')' = false := by decide
  have h1 : (name ++ '(' :: (arg ++ [')'])).takeWhile isWordChar = name := by
    rw [takeWhile_append_all isWordChar name _ hw]
    simp [List.takeWhile_cons, hlp]
  have h2 : (name ++ '(' :: (arg ++ [')'])).drop name.length = '(' :: (arg ++ [')']) :=
    drop_length_append name _
  have h3 : (arg ++ [')']).takeWhile isArgChar = arg := by
    rw [takeWhile_append_all isArgChar arg _ ha]
    simp [List.takeWhile_cons, hrp]
  have h4 : (arg ++ [')']).drop arg.length = [')'] := drop_length_append arg _
  unfold matchCallGrammar
  simp only [h1, h2, h3, h4]
  have hne : name.isEmpty = false := by
    cases name with
    | nil => exact absurd rfl hn
    | cons _ _ => rfl
  simp [hne]

/-!  Claim theorems. -/

/-- C1 (code bug): when both the case block and the Definition carry
`pre_command`, the merged block's field is the return value of
`list.extend`, which is `None` — not the concatenated list
`["X", "Y"]` the specification describes.  A one-sided field is carried
over correctly, as the claim states. -/
theorem C1_extend_returns_none :
    YamlCaseLoader.override_block (.dict [(ckey "pre_command", .list [ckey "Y"])])
        (.dict [(ckey "pre_command", .list [ckey "X"])]) =
      .ok (.dict [(ckey "pre_command", .null), (ckey "post_command", .null),
                  (ckey "verify", .null)]) ∧
    YamlCaseLoader.override_block (.dict [])
        (.dict [(ckey "pre_command", .list [ckey "X"])]) =
      .ok (.dict [(ckey "pre_command", .list [ckey "X"]), (ckey "post_command", .null),
                  (ckey "verify", .null)]) ∧
    YamlCaseLoader.override_block (.dict [(ckey "pre_command", .list [ckey "Y"])])
        (.dict []) =
      .ok (.dict [(ckey "pre_command", .list [ckey "Y"]), (ckey "post_command", .null),
                  (ckey "verify", .null)]) ∧
    Content.null ≠ Content.list [ckey "X", ckey "Y"] :=
  ⟨rfl, rfl, rfl, by simp⟩

/-- C2 (counterexample): `load_file` on a path that is not a file raises
`FileNotFoundError` — the raise sits before the `try` block, so the
claim that `load_file` never raises for every input path is false. -/
theorem C2_counterexample :
    YamlCaseLoader.load_file 1 wNone ⟨[], []⟩ "missing.yaml".toList =
      .error .fileNotFoundError :=
  rfl

/-- C2 (amended): once the path names an existing file, every error
while parsing is caught by the blanket handler and `load_file` returns
a (possibly partial) TestSet to its caller. -/
theorem C2_existing_file_never_raises (fuel : Nat) (w : World) (store : DefStore)
    (p : List Char) (h : w.isFile p = true) :
    ∃ ts, YamlCaseLoader.load_file fuel w store p = .ok ts := by
  unfold YamlCaseLoader.load_file
  rw [h]
  exact ⟨_, rfl⟩

/-- C2 (witness): the amended theorem applied to the world `w1` and its
file. -/
theorem C2_witness :
    w1.isFile "/cwd/t.yaml".toList = true ∧
    ∃ ts, YamlCaseLoader.load_file 3 w1 ⟨[], []⟩ "/cwd/t.yaml".toList = .ok ts :=
  ⟨by decide, C2_existing_file_never_raises 3 w1 ⟨[], []⟩ _ (by decide)⟩

/-- C3 (counterexample): the evaluation engine strips a string leaf
before substitution, so a dollar-free string with surrounding
whitespace does not evaluate to itself. -/
theorem C3_counterexample :
    eval_content_with_bind_actions 1 pTriv (.str " a ".toList) =
      .ok (.str "a".toList) ∧
    Content.str "a".toList ≠ Content.str " a ".toList :=
  ⟨rfl, by simp⟩

/-- C3 (amended): a string containing no `$` (hence no `${` either)
that equals its own strip evaluates to itself, for any bindings and any
fuel. -/
theorem C3_no_token_identity (p : TestCaseParser) (n : Nat) (s : List Char)
    (h1 : '$' ∉ s) (h2 : pyStrip s = s) :
    eval_content_with_bind_actions (n+1) p (.str s) = .ok (.str s) := by
  have hf : funcScanFuel s.length s = [] := funcScanFuel_no_dollar _ _ h1
  have hv : varScanFuel s.length s = [] := varScanFuel_no_dollar _ _ h1
  simp only [eval_content_with_bind_actions, evalStep, h2, extract_functions, funcScan, hf,
    evalFuncsLoop]
  show evalVarsLoop n p (varScanFuel s.length s) (Content.str s) =
    Except.ok (Content.str s)
  rw [hv]
  rfl

/-- C3 (witness): the amended theorem applied to `abc` with the empty
parser. -/
theorem C3_witness :
    '$' ∉ "abc".toList ∧ pyStrip "abc".toList = "abc".toList ∧
    eval_content_with_bind_actions 1 pTriv (.str "abc".toList) =
      .ok (.str "abc".toList) :=
  ⟨by decide, rfl, C3_no_token_identity pTriv 0 _ (by decide) rfl⟩

/-- C4 (confirmed): on every string leaf the evaluator runs the
function-token pass first and the variable-token pass on its result;
observably, a variable token introduced by a function result is then
resolved (second conjunct), while a function token introduced by a
variable value is left unevaluated (third conjunct). -/
theorem C4_functions_before_variables :
    (∀ (p : TestCaseParser) (n : Nat) (s : List Char),
      eval_content_with_bind_actions (n+1) p (.str s) = do
        let c1 ← evalFuncsLoop (eval_content_with_bind_actions n p) n p
          (extract_functions (.str (pyStrip s))) (.str (pyStrip s))
        evalVarsLoop n p (extract_variables c1) c1) ∧
    eval_content_with_bind_actions 2 pDemo (.str "$\x7bf()\x7d".toList) =
      .ok (.int 7) ∧
    eval_content_with_bind_actions 2 pDemo2 (.str "$v".toList) =
      .ok (.str "$\x7bf()\x7d".toList) :=
  ⟨fun _ _ _ => rfl, rfl, rfl⟩

/-- C9 (confirmed): the extractors return the empty list on every
non-string value instead of raising, and return string matches in order
of occurrence. -/
theorem C9_extract_total :
    (∀ c : Content, isStrContent c = false →
       extract_variables c = [] ∧ extract_functions c = []) ∧
    extract_variables (.str "/$var1/$var2".toList) =
      ["var1".toList, "var2".toList] ∧
    extract_functions
        (.str "/api/$\x7badd(1, 2)\x7d?_t=$\x7bget_timestamp()\x7d".toList) =
      ["add(1, 2)".toList, "get_timestamp()".toList] := by
  refine ⟨?_, rfl, rfl⟩
  intro c h
  cases c <;> first
    | exact ⟨rfl, rfl⟩
    | simp [isStrContent] at h

/-- C9 (witness): the totality conjunct applied to the integer 100. -/
theorem C9_witness :
    isStrContent (.int 100) = false ∧ extract_variables (.int 100) = [] ∧
    extract_functions (.int 100) = [] :=
  ⟨rfl, (C9_extract_total.1 (.int 100) rfl).1, (C9_extract_total.1 (.int 100) rfl).2⟩

/-- C10 (confirmed): definition lookup tests truthiness, so a registered
name whose body is falsy raises the same not-found error as an absent
name. -/
theorem C10_falsy_is_not_found (store : DefStore) (name rt : List Char)
    (h : dictGetS (storeGet store rt) name = none ∨
         ∃ b, dictGetS (storeGet store rt) name = some b ∧ pyTruthy b = false) :
    (rt = "api".toList →
       YamlCaseLoader.get_test_definition store name rt = .error .apiNotFound) ∧
    (rt ≠ "api".toList →
       YamlCaseLoader.get_test_definition store name rt = .error .suiteNotFound) := by
  unfold YamlCaseLoader.get_test_definition
  constructor <;> intro hrt <;> rcases h with h | ⟨b, hb, ht⟩
  · rw [h, if_pos hrt]
  · rw [hb]
    simp only [ht, Bool.false_eq_true, if_false, if_pos hrt]
  · rw [h, if_neg hrt]
  · rw [hb]
    simp only [ht, Bool.false_eq_true, if_false, if_neg hrt]

/-- C10 (witness): a suite registered under `e` with an empty dict body
resolves to `SuiteNotFound`, exactly as an unregistered name would. -/
theorem C10_witness :
    dictGetS (storeGet ⟨[], [("e".toList, .dict [])]⟩ "suite".toList) "e".toList =
      some (.dict []) ∧
    pyTruthy (.dict []) = false ∧
    YamlCaseLoader.get_test_definition ⟨[], [("e".toList, .dict [])]⟩
        "e".toList "suite".toList = .error .suiteNotFound := by
  refine ⟨rfl, rfl, ?_⟩
  exact (C10_falsy_is_not_found ⟨[], [("e".toList, .dict [])]⟩ "e".toList
    "suite".toList (Or.inr ⟨.dict [], rfl, rfl⟩)).2 (by decide)

/-- Bind on an `ok` value reduces to the continuation. -/
theorem ok_bind {α β : Type} (a : α) (f : α → Except PErr β) :
    (Except.ok a : Except PErr α) >>= f = f a :=
  rfl

/-- C5 (confirmed): reference resolution raises `ParamsError` whenever
the positional-argument count differs from the declared parameter
count, before any substitution is applied, and succeeds only when the
counts are equal. -/
theorem C5_arity_check (fuel : Nat) (store : DefStore) (rc rt : List Char)
    (meta : FunctionMeta) (blk dac : Content) (dal : List Content)
    (hp : parse_function rc = .ok meta)
    (hl : YamlCaseLoader.get_test_definition store meta.func_name rt = .ok blk)
    (hd : YamlCaseLoader.getDefArgs blk = .ok dac)
    (hi : YamlCaseLoader.toIterList dac = .ok dal) :
    (meta.args.length ≠ dal.length →
       YamlCaseLoader.get_block_by_name fuel store rc rt = .error .paramsError) ∧
    (∀ b, YamlCaseLoader.get_block_by_name fuel store rc rt = .ok b →
       meta.args.length = dal.length) := by
  constructor
  · intro hne
    simp only [YamlCaseLoader.get_block_by_name, hp, ok_bind, hl, hd, hi, if_pos hne]
  · intro b hb
    by_contra hne
    simp only [YamlCaseLoader.get_block_by_name, hp, ok_bind, hl, hd, hi,
      if_pos hne] at hb
    exact Except.noConfusion hb

/-- C5 (witness): calling the two-parameter definition `login` with
three positional arguments fails with `ParamsError`. -/
theorem C5_witness :
    parse_function "login(a,b,c)".toList =
      .ok ⟨"login".toList, [ckey "a", ckey "b", ckey "c"], []⟩ ∧
    YamlCaseLoader.get_block_by_name 5 st5 "login(a,b,c)".toList "api".toList =
      .error .paramsError := by
  refine ⟨rfl, ?_⟩
  exact (C5_arity_check 5 st5 "login(a,b,c)".toList "api".toList
    ⟨"login".toList, [ckey "a", ckey "b", ckey "c"], []⟩ _ _
    [ckey "$u", ckey "$p"] rfl rfl rfl rfl).1 (by decide)

/-- C6 (counterexample): an argument with two `=` characters is split on
both of them and the two-element unpacking raises `ValueError`; the
value `1=2` never reaches the keyword mapping. -/
theorem C6_counterexample :
    parse_function "f(a=1=2)".toList = .error .valueError ∧
    parse_function "f(a=1=2)".toList ≠
      .ok ⟨"f".toList, [], [("a".toList, .str "1=2".toList)]⟩ := by
  refine ⟨rfl, ?_⟩
  intro h
  rw [show parse_function "f(a=1=2)".toList = Except.error PErr.valueError from rfl] at h
  exact Except.noConfusion h

/-- A split on a separator the string does not contain yields the
single original piece. -/
theorem pySplit_no_sep_contains :
    ∀ (s : List Char) (sep : Char), s.contains sep = false → pySplit s sep = [s] := by
  intro s sep h
  induction s with
  | nil => rfl
  | cons c rest ih =>
    rw [List.contains_cons] at h
    have h1 : (sep == c) = false := by
      cases hcv : (sep == c)
      · rfl
      · rw [hcv] at h; simp at h
    have h2 : rest.contains sep = false := by
      cases hcv : rest.contains sep
      · rfl
      · rw [hcv] at h; simp at h
    have hc : ¬(c = sep) := by
      intro he
      rw [he] at h1
      simp at h1
    simp only [pySplit, ih h2, if_neg hc]

/-- C6 (amended): for every call accepted by the top-level grammar,
`parse_function` runs the argument loop over the comma-split,
space-stripped argument pieces (first conjunct); and for each such
piece, one without `=` is coerced into the positional slot, one whose
split on `=` has exactly two pieces populates the keyword slot, and one
whose split has three or more pieces makes the two-element unpacking
raise `ValueError` (second conjunct). -/
theorem C6_split_behavior :
    (∀ (name argsRaw : List Char), name ≠ [] →
      (∀ c ∈ name, isWordChar c = true) → (∀ c ∈ argsRaw, isArgChar c = true) →
      argsRaw.filter (fun c => c != ' ') ≠ [] →
      parse_function (name ++ '(' :: (argsRaw ++ [')'])) =
        parseArgsLoop (pySplit (argsRaw.filter (fun c => c != ' ')) ',')
          ⟨name, [], []⟩) ∧
    (∀ (arg : List Char) (rest : List (List Char)) (m : FunctionMeta),
      (arg.contains '=' = false →
        parseArgsLoop (arg :: rest) m =
          parseArgsLoop rest { m with args := m.args ++ [parse_string_value arg] }) ∧
      (∀ k v, pySplit arg '=' = [k, v] →
        parseArgsLoop (arg :: rest) m =
          parseArgsLoop rest
            { m with kwargs := dictSetS m.kwargs k (parse_string_value v) }) ∧
      (∀ k v w tail, pySplit arg '=' = k :: v :: w :: tail →
        parseArgsLoop (arg :: rest) m = .error .valueError)) := by
  constructor
  · intro name argsRaw hn hw ha hne
    have hmg := matchCallGrammar_wf name argsRaw hn hw ha
    have hni : (argsRaw.filter (fun c => c != ' ')).isEmpty = false := by
      cases hfa : argsRaw.filter (fun c => c != ' ') with
      | nil => exact absurd hfa hne
      | cons x xs => rfl
    unfold parse_function
    rw [hmg]
    simp only [hni, Bool.false_eq_true, if_false]
  · intro arg rest m
    refine ⟨?_, ?_, ?_⟩
    · intro h
      simp only [parseArgsLoop, h, Bool.false_eq_true, if_false]
    · intro k v hs
      cases hcv : arg.contains '=' with
      | false =>
        rw [pySplit_no_sep_contains arg '=' hcv] at hs
        simp at hs
      | true =>
        simp only [parseArgsLoop, hcv, if_true, hs]
    · intro k v w tail hs
      cases hcv : arg.contains '=' with
      | false =>
        rw [pySplit_no_sep_contains arg '=' hcv] at hs
        simp at hs
      | true =>
        simp only [parseArgsLoop, hcv, if_true, hs]

/-- C6 (witness): the amended theorem applied to the two-argument call
`f(x,a=1)` (grammar conjunct, then the positional step for `x` and the
keyword step for `a=1`), with the resulting end-to-end values, and the
`ValueError` outcome for `f(x,a=1=2)`. -/
theorem C6_witness :
    parse_function ("f".toList ++ '(' :: ("x,a=1".toList ++ [')'])) =
      parseArgsLoop (pySplit ("x,a=1".toList.filter (fun c => c != ' ')) ',')
        ⟨"f".toList, [], []⟩ ∧
    parseArgsLoop ["x".toList, "a=1".toList] ⟨"f".toList, [], []⟩ =
      parseArgsLoop ["a=1".toList]
        ⟨"f".toList, [parse_string_value "x".toList], []⟩ ∧
    parseArgsLoop ["a=1".toList] ⟨"f".toList, [parse_string_value "x".toList], []⟩ =
      parseArgsLoop [] ⟨"f".toList, [parse_string_value "x".toList],
        dictSetS [] "a".toList (parse_string_value "1".toList)⟩ ∧
    parse_function "f(x,a=1)".toList =
      .ok ⟨"f".toList, [ckey "x"], [("a".toList, .int 1)]⟩ ∧
    parse_function "f(x,a=1=2)".toList = .error .valueError := by
  refine ⟨C6_split_behavior.1 "f".toList "x,a=1".toList (by decide) (by decide)
    (by decide) (by decide), ?_, ?_, rfl, rfl⟩
  · exact (C6_split_behavior.2 "x".toList ["a=1".toList]
      ⟨"f".toList, [], []⟩).1 (by decide)
  · exact (C6_split_behavior.2 "a=1".toList []
      ⟨"f".toList, [parse_string_value "x".toList], []⟩).2.1
      "a".toList "1".toList rfl

/-- A completed single-path `load_files` call has cached its own result
under the resolved absolute path. -/
theorem load_files_caches (n : Nat) (w : World) (store : DefStore) (c : Cache)
    (p : List Char) (l : List TestSet) (c' : Cache)
    (h : YamlCaseLoader.load_files (n+1) w store c (.single p) = (l, c')) :
    cacheGet c' (absPath w p) = some l := by
  simp only [YamlCaseLoader.load_files, YamlCaseLoader.loadFilesStep] at h
  revert h
  cases hc : cacheGet c (absPath w p) with
  | some l0 =>
    intro h
    simp only [Prod.mk.injEq] at h
    rw [← h.2, hc, h.1]
  | none =>
    intro h
    by_cases hd : w.isDir (absPath w p) = true
    · rw [if_pos hd] at h
      simp only [Prod.mk.injEq] at h
      rw [← h.2, cacheGet_cacheSet, h.1]
    · rw [if_neg hd] at h
      by_cases hf : w.isFile (absPath w p) = true
      · rw [if_pos hf] at h
        simp only [Prod.mk.injEq] at h
        rw [← h.2, cacheGet_cacheSet, h.1]
      · rw [if_neg hf] at h
        simp only [Prod.mk.injEq] at h
        rw [← h.2, cacheGet_cacheSet, h.1]

/-- C7 (confirmed): after a single-path `load_files` call returns, a
second call whose path resolves to the same absolute path — under any
world and any definition store — returns exactly the previously cached
TestSet list and leaves the cache untouched (the hit returns before any
filesystem query). -/
theorem C7_cached_second_load (n m : Nat) (w w' : World) (store store' : DefStore)
    (c : Cache) (p p' : List Char) (l : List TestSet) (c' : Cache)
    (h1 : YamlCaseLoader.load_files (n+1) w store c (.single p) = (l, c'))
    (h2 : absPath w' p' = absPath w p) :
    YamlCaseLoader.load_files (m+1) w' store' c' (.single p') = (l, c') := by
  have hc := load_files_caches n w store c p l c' h1
  simp only [YamlCaseLoader.load_files, YamlCaseLoader.loadFilesStep]
  rw [h2, hc]

/-- C7 (witness): loading `t.yaml` through `w1` fills the cache; the
second call returns the cached TestSet list unchanged. -/
theorem C7_witness :
    YamlCaseLoader.load_files 2 w1 ⟨[], []⟩ [] (.single "t.yaml".toList) =
      ([ts1], [("/cwd/t.yaml".toList, [ts1])]) ∧
    YamlCaseLoader.load_files 1 w1 ⟨[], []⟩ [("/cwd/t.yaml".toList, [ts1])]
        (.single "t.yaml".toList) = ([ts1], [("/cwd/t.yaml".toList, [ts1])]) :=
  ⟨rfl, C7_cached_second_load 1 0 w1 w1 ⟨[], []⟩ ⟨[], []⟩ [] "t.yaml".toList
    "t.yaml".toList [ts1] [("/cwd/t.yaml".toList, [ts1])] rfl rfl⟩

/-- C8 (counterexample): registering a suite definition under a name
already present in the store overwrites the entry but emits no warning
at all — the claim that a duplicate logs a warning for both kinds is
false for suites. -/
theorem C8_counterexample :
    YamlCaseLoader.load_suite_file 3 w1 ⟨[], [("s".toList, ckey "OLD")]⟩
        "/cwd/t.yaml".toList =
      .ok (⟨[], [("s".toList,
        .dict [(ckey "file_path", .str "/cwd/t.yaml".toList),
               (ckey "project", .dict [(ckey "module", ckey "M"),
                                       (ckey "def", .str "s()".toList)]),
               (ckey "cases", .list [.dict [(ckey "pre_command", .list [ckey "P"]),
                                            (ckey "name", ckey "c1[d]")]]),
               (ckey "name", ckey "M"),
               (ckey "function_meta",
                .dict [(ckey "func_name", ckey "s"), (ckey "args", .list []),
                       (ckey "kwargs", .dict [])])])]⟩, []) :=
  rfl

/-- C8 (amended): both kinds overwrite a duplicate name (last write
wins); an api duplicate logs a warning, while a suite registration
never logs one. -/
theorem C8_overwrite_and_warn (store : DefStore) (meta : FunctionMeta)
    (api_dict : List (Content × Content)) (suiteBody : Content) :
    (dictGetS (YamlCaseLoader.registerApiDef store meta api_dict).1.api
        meta.func_name =
      some (.dict (dictSet api_dict (ckey "function_meta") (metaToContent meta)))) ∧
    ((dictGetS store.api meta.func_name).isSome = true →
       (YamlCaseLoader.registerApiDef store meta api_dict).2 =
         [LogEvent.apiDefinitionDuplicated meta.func_name]) ∧
    ((dictGetS store.api meta.func_name).isSome = false →
       (YamlCaseLoader.registerApiDef store meta api_dict).2 = []) ∧
    (dictGetS (YamlCaseLoader.registerSuiteDef store meta suiteBody).1.suite
        meta.func_name = some suiteBody) ∧
    (YamlCaseLoader.registerSuiteDef store meta suiteBody).2 = [] := by
  refine ⟨?_, ?_, ?_, ?_, rfl⟩
  · simp [YamlCaseLoader.registerApiDef, dictGetS_dictSetS]
  · intro h
    simp [YamlCaseLoader.registerApiDef, h]
  · intro h
    simp [YamlCaseLoader.registerApiDef, h]
  · simp [YamlCaseLoader.registerSuiteDef, dictGetS_dictSetS]

/-- C8 (witness): registering `a` over an existing api entry overwrites
it and logs the duplicate warning. -/
theorem C8_witness :
    (dictGetS (⟨[("a".toList, ckey "old")], []⟩ : DefStore).api "a".toList).isSome =
      true ∧
    (YamlCaseLoader.registerApiDef ⟨[("a".toList, ckey "old")], []⟩
        ⟨"a".toList, [], []⟩ []).2 =
      [LogEvent.apiDefinitionDuplicated "a".toList] ∧
    dictGetS (YamlCaseLoader.registerApiDef ⟨[("a".toList, ckey "old")], []⟩
        ⟨"a".toList, [], []⟩ []).1.api "a".toList =
      some (.dict [(ckey "function_meta", metaToContent ⟨"a".toList, [], []⟩)]) :=
  ⟨rfl,
   (C8_overwrite_and_warn ⟨[("a".toList, ckey "old")], []⟩ ⟨"a".toList, [], []⟩ []
     .null).2.1 rfl,
   rfl⟩
